import Mathlib

/-!
# Verification of the scanner-backend document-rectification pipeline

Shallow embedding of the corner-ordering, line-intersection, quadrilateral-search,
strategy-chain, fallback-crop and batch-processing logic of the scanner backend
(`server.js` and its experimental variants), together with theorems settling the
frozen specification claims.

Conventions: machine floating-point numbers are modelled by exact rationals `ℚ`
(the constants involved — 0.01 … 0.08, 0.05, 0.10, 15, 0.001 — behave identically
in both semantics on the inputs considered); JavaScript `Array.prototype.sort`
(stable, comparator-based) is modelled by `List.insertionSort` with the
non-strict comparator relation, which is stable in the same sense; exceptions
are modelled with `Except`/`Option`.
-/

namespace Scanner

/-- A 2D point `[x, y]` with exact rational coordinates. -/
abbrev Point := ℚ × ℚ

/-- `p[0] + p[1]` — the key of the first sort in `orderPoints` (`server.js` line 233). -/
def sumKey (p : Point) : ℚ := p.1 + p.2

/-- `p[1] - p[0]` — the key of the second sort in `orderPoints` (`server.js` line 240). -/
def diffKey (p : Point) : ℚ := p.2 - p.1

/-- Stable ascending sort by `sumKey`, modelling `summed.sort((a, b) => a.sum - b.sum)`. -/
def sortBySum (l : List Point) : List Point :=
  l.insertionSort (fun a b => sumKey a ≤ sumKey b)

/-- Stable ascending sort by `diffKey`, modelling `diffed.sort((a, b) => a.diff - b.diff)`. -/
def sortByDiff (l : List Point) : List Point :=
  l.insertionSort (fun a b => diffKey a ≤ diffKey b)

/-- `orderPoints` from `server.js` (lines 232–244):
sort the points by `x + y` ascending; `tl = summed[0].p`, `br = summed[3].p`;
sort the two remaining points by `y - x` ascending and return
`[tl, diffed[1].p, br, diffed[0].p]`.  The four slots of the result are consumed
downstream (lines 164–175) in the role order
(top-left, top-right, bottom-right, bottom-left).  `none` is returned exactly
when the input does not have four elements (the JS code is only ever called
with four-element arrays). -/
def orderPoints (pts : List Point) : Option (Point × Point × Point × Point) :=
  match sortBySum pts with
  | [s0, s1, s2, s3] =>
    match sortByDiff [s1, s2] with
    | [d0, d1] => some (s0, d1, s3, d0)
    | _ => none
  | _ => none

/-- Three points are collinear iff the cross product of difference vectors vanishes. -/
def collinear3 (a b c : Point) : Prop :=
  (b.1 - a.1) * (c.2 - a.2) - (b.2 - a.2) * (c.1 - a.1) = 0

instance (a b c : Point) : Decidable (collinear3 a b c) := by
  unfold collinear3; infer_instance

/-- A four-point list is a non-degenerate quad when no three of its points are
collinear (spec §3, `Quad` invariant). -/
def NonDegenerate (a b c d : Point) : Prop :=
  ¬ collinear3 a b c ∧ ¬ collinear3 a b d ∧ ¬ collinear3 a c d ∧ ¬ collinear3 b c d

instance (a b c d : Point) : Decidable (NonDegenerate a b c d) := by
  unfold NonDegenerate; infer_instance

/-- Two sorted lists that are permutations of each other and whose sort keys are
pairwise distinct are equal (local antisymmetry from key distinctness). -/
theorem sorted_key_nodup_eq {α : Type} (key : α → ℚ) :
    ∀ l₁ l₂ : List α, l₁.Perm l₂ →
      l₁.Sorted (fun a b => key a ≤ key b) →
      l₂.Sorted (fun a b => key a ≤ key b) →
      (l₁.map key).Nodup → l₁ = l₂ := by
  intro l₁
  induction l₁ with
  | nil =>
    intro l₂ hp _ _ _
    exact hp.symm.eq_nil.symm
  | cons a t ih =>
    intro l₂ hp hs₁ hs₂ hnd
    cases l₂ with
    | nil => exact absurd hp.eq_nil (List.cons_ne_nil a t)
    | cons b t₂ =>
      have hnd' : (∀ x ∈ t, ¬ key x = key a) ∧ (t.map key).Nodup := by
        simpa using hnd
      have hab : a = b := by
        by_contra hne
        have hbt : b ∈ t := by
          have hbmem : b ∈ a :: t := hp.mem_iff.mpr (List.mem_cons_self b t₂)
          rcases List.mem_cons.mp hbmem with h | h
          · exact absurd h.symm hne
          · exact h
        have hat : a ∈ t₂ := by
          have hamem : a ∈ b :: t₂ := hp.mem_iff.mp (List.mem_cons_self a t)
          rcases List.mem_cons.mp hamem with h | h
          · exact absurd h hne
          · exact h
        have h1 : key a ≤ key b := (List.sorted_cons.mp hs₁).1 b hbt
        have h2 : key b ≤ key a := (List.sorted_cons.mp hs₂).1 a hat
        have hk : key a = key b := le_antisymm h1 h2
        exact hnd'.1 b hbt hk.symm
      subst hab
      have ht : t.Perm t₂ := hp.cons_inv
      rw [ih t₂ ht hs₁.of_cons hs₂.of_cons hnd'.2]

/-- A stable key-based sort depends only on the multiset of elements once the
keys are pairwise distinct. -/
theorem insertionSort_key_perm_eq {α : Type} (key : α → ℚ) {l₁ l₂ : List α}
    (hp : l₁.Perm l₂) (hnd : (l₁.map key).Nodup) :
    l₁.insertionSort (fun a b => key a ≤ key b)
      = l₂.insertionSort (fun a b => key a ≤ key b) := by
  haveI htot : IsTotal α (fun a b => key a ≤ key b) := ⟨fun a b => le_total _ _⟩
  haveI htr : IsTrans α (fun a b => key a ≤ key b) :=
    ⟨fun a b c hab hbc => le_trans hab hbc⟩
  apply sorted_key_nodup_eq key
  · exact (List.perm_insertionSort _ l₁).trans (hp.trans (List.perm_insertionSort _ l₂).symm)
  · exact List.sorted_insertionSort _ l₁
  · exact List.sorted_insertionSort _ l₂
  · exact ((List.perm_insertionSort _ l₁).map key).nodup_iff.mpr hnd

end Scanner

namespace Scanner

/-- A decoded raster image, abstracted to its pixel-grid dimensions
(`img.rows`, `img.cols`). -/
structure Image where
  rows : ℕ
  cols : ℕ
deriving DecidableEq

/-- `Math.floor` on a nonnegative rational, yielding a pixel count. -/
def natFloor (q : ℚ) : ℕ := ⌊q⌋₊

/-- A crop rectangle in OpenCV convention (`new cv.Rect(x, y, w, h)`). -/
structure Rect where
  x : ℕ
  y : ℕ
  w : ℕ
  h : ℕ
deriving DecidableEq

/-- The fallback crop rectangle (server.js lines 182–186 and 191–195 with
`crop = 0.05`; part_000 lines 158–162 with `cropPercent = 0.10`):
`x = ⌊cols·p⌋`, `y = ⌊rows·p⌋`, `w = ⌊cols·(1 − 2p)⌋`, `h = ⌊rows·(1 − 2p)⌋`. -/
def cropRect (p : ℚ) (img : Image) : Rect :=
  ⟨natFloor (img.cols * p), natFloor (img.rows * p),
   natFloor (img.cols * (1 - 2 * p)), natFloor (img.rows * (1 - 2 * p))⟩

/-- `img.getRegion(rect)` (OpenCV ROI): defined when the rectangle lies inside
the image, in which case the result is the `h × w` sub-image; `none` models the
native exception on an out-of-bounds rectangle. -/
def getRegion (img : Image) (r : Rect) : Option Image :=
  if r.x + r.w ≤ img.cols ∧ r.y + r.h ≤ img.rows then some ⟨r.h, r.w⟩ else none

/-- The image produced by the fallback crop of `img` with fraction `p`. -/
def fallbackCropped (p : ℚ) (img : Image) : Image :=
  ⟨(cropRect p img).h, (cropRect p img).w⟩

/-- The fallback crop as executed: rectangle computation followed by
`getRegion`. -/
def fallbackCrop (p : ℚ) (img : Image) : Option Image :=
  getRegion img (cropRect p img)

/-- Pixel (i, j) — column i, row j in the coordinates of `img` — lies in the
region retained by one fallback crop of `img`. -/
def inCropOnce (p : ℚ) (img : Image) (i j : ℕ) : Prop :=
  (cropRect p img).x ≤ i ∧ i < (cropRect p img).x + (cropRect p img).w ∧
  (cropRect p img).y ≤ j ∧ j < (cropRect p img).y + (cropRect p img).h

/-- Pixel (i, j), in the coordinates of the ORIGINAL `img`, lies in the region
retained by two successive fallback crops of `img` with the same fraction. -/
def inCropTwice (p : ℚ) (img : Image) (i j : ℕ) : Prop :=
  (cropRect p img).x + (cropRect p (fallbackCropped p img)).x ≤ i ∧
  i < (cropRect p img).x + (cropRect p (fallbackCropped p img)).x
      + (cropRect p (fallbackCropped p img)).w ∧
  (cropRect p img).y + (cropRect p (fallbackCropped p img)).y ≤ j ∧
  j < (cropRect p img).y + (cropRect p (fallbackCropped p img)).y
      + (cropRect p (fallbackCropped p img)).h

/-- A transform failure: `cv.getPerspectiveTransform` throwing on degenerate
(nearly collinear or coincident) source points. -/
inductive TransformError where
  | singular
deriving DecidableEq

/-- Acceptance test of the strategy chain: `corners && corners.length === 4`. -/
def isQuad4 : Option (List Point) → Bool
  | some cs => cs.length == 4
  | none => false

/-- `detectCornersML` (server.js lines 29–50): with no model loaded the
function returns `null` immediately; with a loaded model it returns the
inference result, where `none` also stands for the internal caught-exception
path. -/
def detectCornersML {α : Type} (cornerModel : Option α)
    (infer : α → Option (List Point)) : Option (List Point) :=
  match cornerModel with
  | none => none
  | some m => infer m

/-- The strategy chain of server.js lines 134–153: try the ML result first,
accept it if it has exactly four corners, otherwise fall through to the Hough
result under the same test; `none` when neither strategy produced a
four-corner result. -/
def detectCorners (ml hough : Option (List Point)) : Option (List Point) :=
  if isQuad4 ml then ml else if isQuad4 hough then hough else none

/-- The three-strategy chain as the specification words it (§4.7): model-based,
then line-intersection, then boundary/contour-based, accepting the first
Found.  Stated from the spec for comparison with `detectCorners`, the chain
the code actually implements. -/
def detectCornersSpec (ml hough contour : Option (List Point)) : Option (List Point) :=
  if isQuad4 ml then ml
  else if isQuad4 hough then hough
  else if isQuad4 contour then contour
  else none

/-- One image through the server.js `/process-scan` pipeline (lines 127–197),
abstracted over the two strategy results and over the native perspective
transform `warp` (which may throw on degenerate corners).  A successful warp
produces the fixed 2480×3508 destination canvas
(`img.warpPerspective(M, new cv.Size(2480, 3508))`); a failed warp and the
no-corners case both take the 5% fallback crop.  The inner `none` branch of
`orderPoints` is unreachable: the chain only ever hands over four-point
lists. -/
def processOne (ml hough : Option (List Point))
    (warp : Point × Point × Point × Point → Except TransformError Unit)
    (img : Image) : Image :=
  match detectCorners ml hough with
  | some cs =>
    match orderPoints cs with
    | some q =>
      match warp q with
      | .ok _ => ⟨3508, 2480⟩
      | .error _ => fallbackCropped (1 / 20) img
    | none => fallbackCropped (1 / 20) img
  | none => fallbackCropped (1 / 20) img

/-- A batch-level failure: `cv.imdecode` throwing on an unreadable input
(`DecodeError`); the throw unwinds the request loop. -/
inductive BatchError where
  | decodeError
deriving DecidableEq

/-- The server.js request loop (lines 118–230): each file is decoded and
processed inside the single request-level try block, the results accumulating
into one response; a decode failure unwinds the whole loop and the request
fails with a 500 error, producing no output at all. -/
def processBatch {β : Type} (decode : β → Option Image)
    (perImage : β → Image → Image) : List β → Except BatchError (List Image)
  | [] => .ok []
  | f :: rest =>
    match decode f with
    | none => .error .decodeError
    | some img =>
      match processBatch decode perImage rest with
      | .ok outs => .ok (perImage f img :: outs)
      | .error e => .error e

/-- Per-image error isolation as the specification claims it (§7): each image
decodes and processes independently and a decode failure is fatal only for its
own image.  Stated from the spec for comparison with `processBatch`. -/
def processBatchSpec {β : Type} (decode : β → Option Image)
    (perImage : β → Image → Image) (files : List β) :
    List (Except BatchError Image) :=
  files.map fun f =>
    match decode f with
    | none => .error .decodeError
    | some img => .ok (perImage f img)

/-- A contour as consumed by the part_001 variant: cached area, the vertex
count of `approxPolyDP(0.02 · arcLength, true)`, and the extracted source
points of that approximation. -/
structure Contour01 where
  area : ℚ
  approxRows : ℕ
  srcPoints : List Point

/-- Stable descending sort by area: `contours.sort((a, b) => b.area - a.area)`
(part_001 line 31). -/
def sortContours01 (l : List Contour01) : List Contour01 :=
  l.insertionSort (fun a b => b.area ≤ a.area)

/-- One image through the part_001 variant (lines 14–58): take the largest
contour; if its 0.02-tolerance approximation has exactly 4 rows, perspective-
transform — with NO try/catch around `cv.getPerspectiveTransform`, so a
singular transform propagates out of the per-image code to the request-level
handler (line 87), failing the whole request with a 500 error. -/
def processOne01 (warp : List Point → Except TransformError Unit)
    (contours : List Contour01) (img : Image) : Except TransformError Image :=
  match sortContours01 contours with
  | [] => .ok img
  | largest :: _ =>
    if largest.approxRows = 4 then
      match warp largest.srcPoints with
      | .ok _ => .ok ⟨3508, 2480⟩
      | .error e => .error e
    else .ok img

/-- A boundary candidate as consumed by the part_000 quadrilateral search:
cached contour area and perimeter, the vertex count of `approxPolyDP(ε, true)`
as a function of the absolute tolerance ε, and whether the perspective
transform of the polygon obtained at absolute tolerance ε succeeds. -/
structure Candidate where
  area : ℚ
  peri : ℚ
  approxLen : ℚ → ℕ
  warpOk : ℚ → Bool

/-- The eight tolerance factors of the loop `for (let epsilonFactor = 0.01;
epsilonFactor <= 0.08; epsilonFactor += 0.01)` (part_000 line 83); the
accumulated double-precision values round to exactly these eight steps. -/
def epsFactors : List ℚ :=
  [1 / 100, 2 / 100, 3 / 100, 4 / 100, 5 / 100, 6 / 100, 7 / 100, 8 / 100]

/-- The candidate's area as a percentage of the working-image area
(part_000 line 72). -/
def areaPercent (imageArea : ℚ) (c : Candidate) : ℚ :=
  c.area / imageArea * 100

/-- The tolerance loop of part_000 (lines 83–148) for one candidate: the first
tolerance factor at which the simplification has exactly 4 vertices AND the
perspective transform succeeds; when the transform of a 4-vertex
simplification fails (the inner catch at line 144), the loop continues with
the next tolerance. -/
def findEps (c : Candidate) : List ℚ → Option ℚ
  | [] => none
  | e :: rest =>
    if c.approxLen (e * c.peri) = 4 ∧ c.warpOk (e * c.peri) = true then some e
    else findEps c rest

/-- The tolerance loop as the claim words it (spec §4.3 step 4): stop at the
FIRST tolerance whose simplification yields exactly 4 vertices.  Stated from
the spec for comparison with `findEps`. -/
def findEpsSpec (c : Candidate) : List ℚ → Option ℚ
  | [] => none
  | e :: rest =>
    if c.approxLen (e * c.peri) = 4 then some e else findEpsSpec c rest

/-- The candidate loop of part_000 (lines 69–151): skip candidates whose area
is below 15% of the working-image area, otherwise run the tolerance loop; the
first acceptance wins and the loop breaks out. -/
def searchGo (imageArea : ℚ) : List Candidate → Option (Candidate × ℚ)
  | [] => none
  | c :: rest =>
    if areaPercent imageArea c < 15 then searchGo imageArea rest
    else
      match findEps c epsFactors with
      | some e => some (c, e)
      | none => searchGo imageArea rest

/-- Stable descending sort by cached contour area (part_000 line 62). -/
def sortCandidates (l : List Candidate) : List Candidate :=
  l.insertionSort (fun a b => b.area ≤ a.area)

/-- The part_000 quadrilateral search (lines 61–151): sort contours by area
descending, consider the first `min(10, n)`, run the candidate loop. -/
def quadSearch (imageArea : ℚ) (contours : List Candidate) :
    Option (Candidate × ℚ) :=
  searchGo imageArea ((sortCandidates contours).take (min 10 contours.length))

/-- C1: ordering the four points (0,0), (100,0), (100,100), (0,100) with the
sum/difference method of `orderPoints` (server.js) is claimed to yield
top-left = (0,0), top-right = (100,0), bottom-right = (100,100),
bottom-left = (0,100).  The code in fact returns the slots
(top-left, top-right, bottom-right, bottom-left) =
((0,0), (0,100), (100,100), (100,0)): it assigns the remaining point with the
LARGER y − x to the top-right slot and the smaller to bottom-left, the
opposite of the claimed (and standard) assignment, mirroring the document. -/
theorem orderPoints_square_eval :
    orderPoints [(0, 0), (100, 0), (100, 100), (0, 100)]
        = some ((0, 0), (0, 100), (100, 100), (100, 0)) ∧
    orderPoints [(0, 0), (100, 0), (100, 100), (0, 100)]
        ≠ some ((0, 0), (100, 0), (100, 100), (0, 100)) := by
  constructor <;>
    norm_num [orderPoints, sortBySum, sortByDiff, List.insertionSort,
      List.orderedInsert, sumKey, diffKey]

/-- C2 counterexample: a non-degenerate quad on which `orderPoints` is NOT
invariant under permutation of the input array.  The points (0,10) and (10,0)
have equal coordinate sum 10, so the stable first sort keeps them in input
order and the head of the sorted list — the top-left slot — depends on the
input order. -/
theorem orderPoints_not_perm_invariant :
    NonDegenerate (0, 10) (10, 0) (20, 20) (30, 30) ∧
    List.Perm [((0 : ℚ), (10 : ℚ)), (10, 0), (20, 20), (30, 30)]
      [(10, 0), (0, 10), (20, 20), (30, 30)] ∧
    orderPoints [(0, 10), (10, 0), (20, 20), (30, 30)]
      ≠ orderPoints [(10, 0), (0, 10), (20, 20), (30, 30)] := by
  refine ⟨by norm_num [NonDegenerate, collinear3],
    List.Perm.swap (10, 0) (0, 10) [(20, 20), (30, 30)], ?_⟩
  norm_num [orderPoints, sortBySum, sortByDiff, List.insertionSort,
    List.orderedInsert, sumKey, diffKey]

/-- C2 (amended): `orderPoints` is invariant under permutation of its input
array provided the coordinate sums x + y of the input points are pairwise
distinct (so that the stable sort cannot depend on encounter order).  The
remaining-pair sort needs no distinctness: its input order is itself
canonical once the first sort is. -/
theorem orderPoints_perm_invariant {l₁ l₂ : List Point} (hp : l₁.Perm l₂)
    (hnd : (l₁.map sumKey).Nodup) : orderPoints l₁ = orderPoints l₂ := by
  unfold orderPoints sortBySum
  rw [insertionSort_key_perm_eq sumKey hp hnd]

/-- A line segment as produced by `houghLinesP`: the fields `x, y, z, w` hold
the endpoint coordinates (x1, y1, x2, y2), exactly as destructured by
`intersectLines` (`server.js` lines 106–107). -/
structure Seg where
  x : ℚ
  y : ℚ
  z : ℚ
  w : ℚ

/-- The intersection denominator of `intersectLines` (`server.js` line 109). -/
def denomOf (line1 line2 : Seg) : ℚ :=
  (line1.x - line1.z) * (line2.y - line2.w) - (line1.y - line1.w) * (line2.x - line2.z)

/-- `intersectLines` from `server.js` (lines 105–116): return `null` when the
absolute denominator is below 0.001, otherwise the intersection point of the
two infinite lines by the standard determinant formulas. -/
def intersectLines (line1 line2 : Seg) : Option Point :=
  let x1 := line1.x; let y1 := line1.y; let x2 := line1.z; let y2 := line1.w
  let x3 := line2.x; let y3 := line2.y; let x4 := line2.z; let y4 := line2.w
  let denom := (x1 - x2) * (y3 - y4) - (y1 - y2) * (x3 - x4)
  if |denom| < 1 / 1000 then none
  else
    some (((x1 * y2 - y1 * x2) * (x3 - x4) - (x1 - x2) * (x3 * y4 - y3 * x4)) / denom,
          ((x1 * y2 - y1 * x2) * (y3 - y4) - (y1 - y2) * (x3 * y4 - y3 * x4)) / denom)

/-- Membership of a point on the infinite line through a segment's endpoints. -/
def onLine (s : Seg) (p : Point) : Prop :=
  (p.2 - s.y) * (s.z - s.x) = (p.1 - s.x) * (s.w - s.y)

/-- C10: `intersectLines` is total, returns `null` exactly when the absolute
denominator is below 0.001 (so the guarded division never divides by a
near-zero denominator), and otherwise returns the unique common point of the
two infinite lines through the segments. -/
theorem intersectLines_correct (l1 l2 : Seg) :
    (intersectLines l1 l2 = none ↔ |denomOf l1 l2| < 1 / 1000) ∧
    (∀ p : Point, intersectLines l1 l2 = some p →
      onLine l1 p ∧ onLine l2 p ∧
      ∀ q : Point, onLine l1 q → onLine l2 q → q = p) := by
  obtain ⟨x1, y1, x2, y2⟩ := l1
  obtain ⟨x3, y3, x4, y4⟩ := l2
  simp only [intersectLines, denomOf, onLine]
  constructor
  · split_ifs with h
    · simpa using h
    · simpa using h
  · intro p hp
    split_ifs at hp with h
    have hd : (x1 - x2) * (y3 - y4) - (y1 - y2) * (x3 - x4) ≠ 0 := by
      intro h0
      exact h (by rw [h0]; norm_num)
    obtain rfl : (((x1 * y2 - y1 * x2) * (x3 - x4) - (x1 - x2) * (x3 * y4 - y3 * x4)) /
          ((x1 - x2) * (y3 - y4) - (y1 - y2) * (x3 - x4)),
        ((x1 * y2 - y1 * x2) * (y3 - y4) - (y1 - y2) * (x3 * y4 - y3 * x4)) /
          ((x1 - x2) * (y3 - y4) - (y1 - y2) * (x3 - x4))) = p := Option.some.inj hp
    refine ⟨by field_simp; ring, by field_simp; ring, ?_⟩
    intro q hq1 hq2
    have hqx : q.1 * ((x1 - x2) * (y3 - y4) - (y1 - y2) * (x3 - x4))
        = (x1 * y2 - y1 * x2) * (x3 - x4) - (x1 - x2) * (x3 * y4 - y3 * x4) := by
      linear_combination (x4 - x3) * hq1 + (x1 - x2) * hq2
    have hqy : q.2 * ((x1 - x2) * (y3 - y4) - (y1 - y2) * (x3 - x4))
        = (x1 * y2 - y1 * x2) * (y3 - y4) - (y1 - y2) * (x3 * y4 - y3 * x4) := by
      linear_combination (y4 - y3) * hq1 - (y2 - y1) * hq2
    refine Prod.ext ?_ ?_
    · rw [eq_div_iff hd]
      exact hqx
    · rw [eq_div_iff hd]
      exact hqy

/-- C10 witness: a concrete horizontal and vertical segment pair on which the
intersection is computed and certified by the correctness theorem. -/
theorem intersectLines_correct_witness :
    intersectLines ⟨0, 0, 2, 0⟩ ⟨1, -1, 1, 1⟩ = some (1, 0) ∧
    onLine ⟨0, 0, 2, 0⟩ (1, 0) ∧ onLine ⟨1, -1, 1, 1⟩ (1, 0) := by
  have h := (intersectLines_correct ⟨0, 0, 2, 0⟩ ⟨1, -1, 1, 1⟩).2 (1, 0)
    (by norm_num [intersectLines])
  exact ⟨by norm_num [intersectLines], h.1, h.2.1⟩

/-- C5 counterexample: in the part_001 variant a singular perspective
transform is NOT recovered locally: the per-image processing evaluates to the
propagated error, which the request-level handler turns into a 500 response —
a user-visible error, and no output image is produced for the input.  The
source points are the nearly collinear quad of spec Scenario 4. -/
theorem processOne01_propagates_singular :
    processOne01 (fun _ => .error .singular)
        [⟨5000, 4, [(0, 0), (50, 1), (100, 0), (50, 100)]⟩] ⟨1000, 1000⟩
      = .error .singular := rfl

/-- C5 (amended): in the server.js pipeline a singular transform on the
detected corners is recovered locally — the catch at line 179 applies the
fallback crop and the pipeline still produces an output image, never
propagating the failure; in the part_001 variant, which has no local catch,
the same failure propagates to the request-level handler as a user-visible
500 error. -/
theorem processOne_recovers_singular (ml hough : Option (List Point))
    (warp : Point × Point × Point × Point → Except TransformError Unit)
    (img : Image) (cs : List Point) (q : Point × Point × Point × Point)
    (hcs : detectCorners ml hough = some cs) (hq : orderPoints cs = some q)
    (hw : warp q = .error .singular) :
    processOne ml hough warp img = fallbackCropped (1 / 20) img := by
  simp [processOne, hcs, hq, hw]

/-- C5 witness: the nearly collinear Scenario 4 quad handed to a transform
that fails: the server.js pipeline output is the fallback crop. -/
theorem processOne_recovers_singular_witness :
    detectCorners (some [(0, 0), (50, 1), (100, 0), (50, 100)]) none
      = some [(0, 0), (50, 1), (100, 0), (50, 100)] ∧
    processOne (some [(0, 0), (50, 1), (100, 0), (50, 100)]) none
        (fun _ => .error .singular) ⟨1000, 1000⟩
      = fallbackCropped (1 / 20) ⟨1000, 1000⟩ :=
  ⟨rfl, processOne_recovers_singular _ _ _ _ _
    ((0, 0), (50, 1), (50, 100), (100, 0)) rfl
    (by norm_num [orderPoints, sortBySum, sortByDiff, List.insertionSort,
      List.orderedInsert, sumKey, diffKey]) rfl⟩

/-- C6 counterexample: a two-image batch whose first image fails to decode.
The code aborts the whole request with the decode error, while the claimed
per-image isolation would still process the second image and produce its
output. -/
theorem processBatch_not_isolated :
    processBatch (fun n : ℕ => if n = 0 then none else some ⟨200, 100⟩)
        (fun _ img => img) [0, 1] = .error .decodeError ∧
    processBatchSpec (fun n : ℕ => if n = 0 then none else some ⟨200, 100⟩)
        (fun _ img => img) [0, 1]
      = [.error .decodeError, .ok ⟨200, 100⟩] := by
  constructor <;> rfl

/-- C6 (amended): a decode failure anywhere in the batch aborts the ENTIRE
request: the loop unwinds to the request-level catch, the caller receives a
500 error, and no image of the batch — decodable or not — produces output. -/
theorem processBatch_decode_aborts_batch {β : Type} (decode : β → Option Image)
    (perImage : β → Image → Image) (files : List β) (f : β)
    (hf : f ∈ files) (hdec : decode f = none) :
    processBatch decode perImage files = .error .decodeError := by
  induction files with
  | nil => cases hf
  | cons g rest ih =>
    rcases List.mem_cons.mp hf with rfl | hmem
    · simp [processBatch, hdec]
    · cases hg : decode g with
      | none => simp [processBatch, hg]
      | some img => simp [processBatch, hg, ih hmem]

/-- C6 witness: the decode failure sits at the SECOND position, after a
decodable image, and still the whole batch is aborted. -/
theorem processBatch_decode_aborts_batch_witness :
    (1 : ℕ) ∈ [0, 1] ∧
    processBatch (fun n : ℕ => if n = 1 then none else some ⟨200, 100⟩)
        (fun _ img => img) [0, 1] = .error .decodeError :=
  ⟨by simp, processBatch_decode_aborts_batch _ _ [0, 1] 1 (by simp) (by simp)⟩

/-- C7 counterexample: with the model-based and line-intersection strategies
returning NotFound but a boundary/contour detection available (Found), the
spec's three-strategy chain would return that quad, while the server.js code —
whose chain has no contour stage — invokes the fallback cropper anyway: the
fallback is NOT invoked exactly when all THREE strategies return NotFound. -/
theorem strategyChain_missing_contour_stage :
    detectCorners none none = none ∧
    detectCornersSpec none none
        (some [(0, 0), (100, 0), (100, 100), (0, 100)])
      = some [(0, 0), (100, 0), (100, 100), (0, 100)] ∧
    processOne none none (fun _ => .ok ()) ⟨1000, 1000⟩
      = fallbackCropped (1 / 20) ⟨1000, 1000⟩ :=
  ⟨rfl, rfl, rfl⟩

/-- C7 (amended): the server.js chain consists of exactly two strategies —
model-based then line-intersection — accepting the first four-corner result;
with no model loaded the model-based stage deterministically returns NotFound
immediately; the fallback cropper runs exactly when BOTH stages fail to
produce four corners.  The boundary/contour detector exists only in a
separate experimental variant and is not part of this chain. -/
theorem strategyChain_two_stage (ml hough : Option (List Point)) :
    (∀ (α : Type) (infer : α → Option (List Point)),
      detectCornersML (none : Option α) infer = none) ∧
    (isQuad4 ml = true → detectCorners ml hough = ml) ∧
    (isQuad4 ml = false → isQuad4 hough = true → detectCorners ml hough = hough) ∧
    (isQuad4 ml = false → isQuad4 hough = false →
      ∀ warp img, processOne ml hough warp img = fallbackCropped (1 / 20) img) :=
  ⟨fun _ _ => rfl,
   fun h => by simp [detectCorners, h],
   fun h1 h2 => by simp [detectCorners, h1, h2],
   fun h1 h2 warp img => by simp [processOne, detectCorners, h1, h2]⟩

/-- C7 witness: the two-stage chain applied at concrete strategy results:
a four-corner ML result is accepted as-is, and two failed stages take the
fallback crop. -/
theorem strategyChain_two_stage_witness :
    detectCorners (some [(0, 0), (2, 0), (2, 2), (0, 2)]) none
      = some [(0, 0), (2, 0), (2, 2), (0, 2)] ∧
    processOne none none (fun _ => .ok ()) ⟨40, 40⟩
      = fallbackCropped (1 / 20) ⟨40, 40⟩ :=
  ⟨(strategyChain_two_stage (some [(0, 0), (2, 0), (2, 2), (0, 2)]) none).2.1 rfl,
   (strategyChain_two_stage none none).2.2.2 rfl rfl (fun _ => .ok ()) ⟨40, 40⟩⟩

/-- C8 counterexample: on a 101×101 input with every strategy returning
NotFound, the fallback crop output is 90×90; but 101·(1 − 2·0.05) = 90.9, so
the output dimension is the rounded-down product, not the product itself as
the claim states. -/
theorem fallback_dims_not_exact :
    processOne none none (fun _ => .ok ()) ⟨101, 101⟩ = ⟨90, 90⟩ ∧
    ((90 : ℚ) ≠ 101 * (1 - 2 * (1 / 20))) := by
  constructor
  · show fallbackCropped (1 / 20) ⟨101, 101⟩ = ⟨90, 90⟩
    simp only [fallbackCropped, cropRect, natFloor]
    norm_num [Nat.floor_eq_iff]
  · norm_num

/-- C8 (amended): whenever both strategies return NotFound, the fallback crop
runs and each output dimension is the FLOOR of the original dimension times
(1 − 2p) with p = 0.05 — equal to the exact product when that product is an
integer and within one pixel below it otherwise. -/
theorem fallback_crop_dims (ml hough : Option (List Point))
    (warp : Point × Point × Point × Point → Except TransformError Unit)
    (img : Image) (h1 : isQuad4 ml = false) (h2 : isQuad4 hough = false) :
    processOne ml hough warp img = fallbackCropped (1 / 20) img ∧
    (fallbackCropped (1 / 20) img).rows
      = natFloor ((img.rows : ℚ) * (1 - 2 * (1 / 20))) ∧
    (fallbackCropped (1 / 20) img).cols
      = natFloor ((img.cols : ℚ) * (1 - 2 * (1 / 20))) ∧
    ((fallbackCropped (1 / 20) img).rows : ℚ)
      ≤ (img.rows : ℚ) * (1 - 2 * (1 / 20)) ∧
    (img.rows : ℚ) * (1 - 2 * (1 / 20)) - 1
      < ((fallbackCropped (1 / 20) img).rows : ℚ) ∧
    ((fallbackCropped (1 / 20) img).cols : ℚ)
      ≤ (img.cols : ℚ) * (1 - 2 * (1 / 20)) ∧
    (img.cols : ℚ) * (1 - 2 * (1 / 20)) - 1
      < ((fallbackCropped (1 / 20) img).cols : ℚ) := by
  refine ⟨by simp [processOne, detectCorners, h1, h2], rfl, rfl, ?_, ?_, ?_, ?_⟩
  · exact Nat.floor_le (mul_nonneg (Nat.cast_nonneg _) (by norm_num))
  · exact Nat.sub_one_lt_floor _
  · exact Nat.floor_le (mul_nonneg (Nat.cast_nonneg _) (by norm_num))
  · exact Nat.sub_one_lt_floor _

/-- C8 witness: a 200×100 image with both strategies failing: output is the
180×90 fallback crop, within the floor bounds. -/
theorem fallback_crop_dims_witness :
    processOne none none (fun _ => .error .singular) ⟨200, 100⟩
      = fallbackCropped (1 / 20) ⟨200, 100⟩ ∧
    ((fallbackCropped (1 / 20) ⟨200, 100⟩).cols : ℚ)
      ≤ (100 : ℚ) * (1 - 2 * (1 / 20)) := by
  have h := fallback_crop_dims none none (fun _ => .error .singular)
    ⟨200, 100⟩ rfl rfl
  exact ⟨h.1, h.2.2.2.2.2.1⟩

/-- The crop rectangle fits inside the image: offset plus retained extent
never exceeds the dimension (⌊c·p⌋ + ⌊c·(1−2p)⌋ ≤ c·(1−p) ≤ c). -/
theorem cropRect_fits (c : ℕ) (p : ℚ) (hp : 0 ≤ p) (hp2 : 2 * p ≤ 1) :
    natFloor ((c : ℚ) * p) + natFloor ((c : ℚ) * (1 - 2 * p)) ≤ c := by
  have h1 : (0 : ℚ) ≤ (c : ℚ) * p := mul_nonneg (Nat.cast_nonneg c) hp
  have h2 : (0 : ℚ) ≤ (c : ℚ) * (1 - 2 * p) :=
    mul_nonneg (Nat.cast_nonneg c) (by linarith)
  have k1 : ((natFloor ((c : ℚ) * p) : ℕ) : ℚ) ≤ (c : ℚ) * p := Nat.floor_le h1
  have k2 : ((natFloor ((c : ℚ) * (1 - 2 * p)) : ℕ) : ℚ) ≤ (c : ℚ) * (1 - 2 * p) :=
    Nat.floor_le h2
  have hsum : ((natFloor ((c : ℚ) * p) + natFloor ((c : ℚ) * (1 - 2 * p)) : ℕ) : ℚ)
      ≤ (c : ℚ) := by
    push_cast
    nlinarith
  exact_mod_cast hsum

/-- With a strictly positive crop fraction and a nonempty dimension, the crop
rectangle is STRICTLY smaller than the dimension it is cut from. -/
theorem cropRect_strict (c : ℕ) (p : ℚ) (hp : 0 < p) (hp2 : 2 * p ≤ 1)
    (hc : 1 ≤ c) :
    natFloor ((c : ℚ) * p) + natFloor ((c : ℚ) * (1 - 2 * p)) < c := by
  have hc1 : (1 : ℚ) ≤ (c : ℚ) := by exact_mod_cast hc
  have h1 : (0 : ℚ) ≤ (c : ℚ) * p := mul_nonneg (Nat.cast_nonneg c) hp.le
  have h2 : (0 : ℚ) ≤ (c : ℚ) * (1 - 2 * p) :=
    mul_nonneg (Nat.cast_nonneg c) (by linarith)
  have k1 : ((natFloor ((c : ℚ) * p) : ℕ) : ℚ) ≤ (c : ℚ) * p := Nat.floor_le h1
  have k2 : ((natFloor ((c : ℚ) * (1 - 2 * p)) : ℕ) : ℚ) ≤ (c : ℚ) * (1 - 2 * p) :=
    Nat.floor_le h2
  have hcp : p ≤ (c : ℚ) * p := le_mul_of_one_le_left hp.le hc1
  have hsum : ((natFloor ((c : ℚ) * p) + natFloor ((c : ℚ) * (1 - 2 * p)) : ℕ) : ℚ)
      < (c : ℚ) := by
    push_cast
    nlinarith
  exact_mod_cast hsum

/-- C9 counterexample: a 1×1 image — positive pixel area.  With the server.js
fraction p = 0.05 the first crop already yields the empty 0×0 region, the
second crop is again empty, and the twice-cropped region is NOT strictly
contained in the once-cropped region (both are empty): the claimed monotonic
strict shrink fails, although both applications do succeed without error. -/
theorem fallbackCrop_twice_not_strict_on_unit :
    fallbackCrop (1 / 20) ⟨1, 1⟩ = some ⟨0, 0⟩ ∧
    fallbackCrop (1 / 20) (fallbackCropped (1 / 20) ⟨1, 1⟩) = some ⟨0, 0⟩ ∧
    ¬ ∃ i j, inCropOnce (1 / 20) ⟨1, 1⟩ i j ∧
        ¬ inCropTwice (1 / 20) ⟨1, 1⟩ i j := by
  have hc1 : cropRect (1 / 20) (⟨1, 1⟩ : Image) = ⟨0, 0, 0, 0⟩ := by
    norm_num [cropRect, natFloor, Nat.floor_eq_zero]
  have hcrop : fallbackCropped (1 / 20) (⟨1, 1⟩ : Image) = ⟨0, 0⟩ := by
    rw [fallbackCropped, hc1]
  have hc0 : cropRect (1 / 20) (⟨0, 0⟩ : Image) = ⟨0, 0, 0, 0⟩ := by
    norm_num [cropRect, natFloor, Nat.floor_eq_zero]
  refine ⟨?_, ?_, ?_⟩
  · rw [fallbackCrop, hc1]
    norm_num [getRegion]
  · rw [fallbackCrop, hcrop, hc0]
    norm_num [getRegion]
  · rintro ⟨i, j, honce, -⟩
    unfold inCropOnce at honce
    rw [hc1] at honce
    simp at honce

/-- C9 (amended): with crop fraction 0 < p ≤ 1/2 and an image large enough
that the once-cropped region is nonempty, neither crop application fails, and
cropping twice retains a region strictly contained in the once-cropped
region.  (On degenerate positive-area images whose first crop is already
empty — e.g. 1×1 — the strictness fails; see the counterexample.) -/
theorem fallbackCrop_twice_shrinks (p : ℚ) (img : Image)
    (hp : 0 < p) (hp2 : 2 * p ≤ 1)
    (hw : 1 ≤ (cropRect p img).w) (hh : 1 ≤ (cropRect p img).h) :
    fallbackCrop p img = some (fallbackCropped p img) ∧
    fallbackCrop p (fallbackCropped p img)
      = some (fallbackCropped p (fallbackCropped p img)) ∧
    (∀ i j, inCropTwice p img i j → inCropOnce p img i j) ∧
    (∃ i j, inCropOnce p img i j ∧ ¬ inCropTwice p img i j) := by
  have f1 : (cropRect p img).x + (cropRect p img).w ≤ img.cols :=
    cropRect_fits img.cols p hp.le hp2
  have f2 : (cropRect p img).y + (cropRect p img).h ≤ img.rows :=
    cropRect_fits img.rows p hp.le hp2
  have g1 : (cropRect p (fallbackCropped p img)).x
      + (cropRect p (fallbackCropped p img)).w < (cropRect p img).w :=
    cropRect_strict (cropRect p img).w p hp hp2 hw
  have g2 : (cropRect p (fallbackCropped p img)).y
      + (cropRect p (fallbackCropped p img)).h < (cropRect p img).h :=
    cropRect_strict (cropRect p img).h p hp hp2 hh
  refine ⟨?_, ?_, ?_, ?_⟩
  · unfold fallbackCrop
    rw [getRegion, if_pos ⟨f1, f2⟩]
    rfl
  · unfold fallbackCrop
    rw [getRegion, if_pos (⟨le_of_lt g1, le_of_lt g2⟩ :
      (cropRect p (fallbackCropped p img)).x + (cropRect p (fallbackCropped p img)).w
          ≤ (fallbackCropped p img).cols ∧
        (cropRect p (fallbackCropped p img)).y + (cropRect p (fallbackCropped p img)).h
          ≤ (fallbackCropped p img).rows)]
    rfl
  · intro i j hij
    unfold inCropTwice at hij
    unfold inCropOnce
    omega
  · refine ⟨(cropRect p img).x + (cropRect p img).w - 1, (cropRect p img).y, ?_, ?_⟩
    · unfold inCropOnce
      omega
    · unfold inCropTwice
      omega

/-- C9 witness: a 100×100 image with the server.js fraction p = 0.05: both
crops succeed and a once-cropped pixel escapes the twice-cropped region. -/
theorem fallbackCrop_twice_shrinks_witness :
    1 ≤ (cropRect (1 / 20) ⟨100, 100⟩).w ∧
    fallbackCrop (1 / 20) ⟨100, 100⟩
      = some (fallbackCropped (1 / 20) ⟨100, 100⟩) ∧
    (∃ i j, inCropOnce (1 / 20) ⟨100, 100⟩ i j ∧
      ¬ inCropTwice (1 / 20) ⟨100, 100⟩ i j) := by
  have hw : 1 ≤ (cropRect (1 / 20) (⟨100, 100⟩ : Image)).w := by
    show 1 ≤ natFloor ((100 : ℚ) * (1 - 2 * (1 / 20)))
    exact Nat.le_floor (by norm_num)
  have hh : 1 ≤ (cropRect (1 / 20) (⟨100, 100⟩ : Image)).h := by
    show 1 ≤ natFloor ((100 : ℚ) * (1 - 2 * (1 / 20)))
    exact Nat.le_floor (by norm_num)
  have h := fallbackCrop_twice_shrinks (1 / 20) ⟨100, 100⟩ (by norm_num)
    (by norm_num) hw hh
  exact ⟨hw, h.1, h.2.2.2⟩

/-- Characterization of a successful inner tolerance loop: the returned
tolerance is accepted (4 vertices and successful transform) and every earlier
tolerance in the list is not accepted. -/
theorem findEps_some_split {c : Candidate} :
    ∀ {l : List ℚ} {e : ℚ}, findEps c l = some e →
      (c.approxLen (e * c.peri) = 4 ∧ c.warpOk (e * c.peri) = true) ∧
      ∃ l₁ l₂, l = l₁ ++ e :: l₂ ∧
        ∀ e' ∈ l₁,
          ¬ (c.approxLen (e' * c.peri) = 4 ∧ c.warpOk (e' * c.peri) = true) := by
  intro l
  induction l with
  | nil => intro e h; simp [findEps] at h
  | cons g rest ih =>
    intro e h
    simp only [findEps] at h
    split_ifs at h with hacc
    · obtain rfl : g = e := by simpa using h
      exact ⟨hacc, [], rest, rfl, by simp⟩
    · obtain ⟨ha, l₁, l₂, heq, hrej⟩ := ih h
      refine ⟨ha, g :: l₁, l₂, by simp [heq], ?_⟩
      intro e' he'
      rcases List.mem_cons.mp he' with rfl | hm
      · exact hacc
      · exact hrej e' hm

/-- Characterization of a successful candidate loop: the winner passes the
area filter, its tolerance loop succeeds, and every earlier candidate in the
list was skipped by the area filter or exhausted its tolerances. -/
theorem searchGo_some_split {A : ℚ} :
    ∀ {l : List Candidate} {c : Candidate} {e : ℚ}, searchGo A l = some (c, e) →
      ¬ areaPercent A c < 15 ∧ findEps c epsFactors = some e ∧
      ∃ l₁ l₂, l = l₁ ++ c :: l₂ ∧
        ∀ c' ∈ l₁, areaPercent A c' < 15 ∨ findEps c' epsFactors = none := by
  intro l
  induction l with
  | nil => intro c e h; simp [searchGo] at h
  | cons g rest ih =>
    intro c e h
    simp only [searchGo] at h
    split_ifs at h with hskip
    · obtain ⟨h15, hf, l₁, l₂, heq, hrej⟩ := ih h
      refine ⟨h15, hf, g :: l₁, l₂, by simp [heq], ?_⟩
      intro c' hc'
      rcases List.mem_cons.mp hc' with rfl | hm
      · exact Or.inl hskip
      · exact hrej c' hm
    · cases hfg : findEps g epsFactors with
      | some e' =>
        rw [hfg] at h
        obtain ⟨rfl, rfl⟩ : g = c ∧ e' = e := by simpa using h
        exact ⟨hskip, hfg, [], rest, rfl, by simp⟩
      | none =>
        rw [hfg] at h
        obtain ⟨h15, hf, l₁, l₂, heq, hrej⟩ := ih h
        refine ⟨h15, hf, g :: l₁, l₂, by simp [heq], ?_⟩
        intro c' hc'
        rcases List.mem_cons.mp hc' with rfl | hm
        · exact Or.inr hfg
        · exact hrej c' hm

/-- Immediate termination: once the loop reaches an accepted candidate, the
result does not depend on anything after it in the list. -/
theorem searchGo_break {A : ℚ} {c : Candidate} {e : ℚ}
    (h15 : ¬ areaPercent A c < 15) (hf : findEps c epsFactors = some e) :
    ∀ l₁ : List Candidate,
      (∀ c' ∈ l₁, areaPercent A c' < 15 ∨ findEps c' epsFactors = none) →
      ∀ l₂, searchGo A (l₁ ++ c :: l₂) = some (c, e) := by
  intro l₁
  induction l₁ with
  | nil =>
    intro _ l₂
    simp only [List.nil_append, searchGo]
    rw [if_neg h15, hf]
  | cons g rest ih =>
    intro hrej l₂
    have hg := hrej g (List.mem_cons_self g rest)
    simp only [List.cons_append, searchGo]
    rcases hg with hskip | hnone
    · rw [if_pos hskip]
      exact ih (fun c' hm => hrej c' (List.mem_cons_of_mem g hm)) l₂
    · split_ifs with hskip
      · exact ih (fun c' hm => hrej c' (List.mem_cons_of_mem g hm)) l₂
      · rw [hnone]
        exact ih (fun c' hm => hrej c' (List.mem_cons_of_mem g hm)) l₂

/-- A candidate (60% of a 100-unit frame) whose simplification yields a
quadrilateral at the first two tolerance factors while the perspective
transform succeeds only at the second. -/
def retryCandidate : Candidate :=
  ⟨60, 1, fun eps => if eps ≤ 2 / 100 then 4 else 9,
    fun eps => decide (eps = 2 / 100)⟩

/-- C3 counterexample: the search does NOT stop at the first tolerance whose
simplification yields exactly 4 vertices: for `retryCandidate` the first
tolerance factor 0.01 already yields 4 vertices (as the spec-worded loop
`findEpsSpec` reports), but since the transform fails there the code
continues and accepts tolerance 0.02 instead. -/
theorem quadSearch_continues_past_first_four :
    retryCandidate.approxLen ((1 / 100) * retryCandidate.peri) = 4 ∧
    findEpsSpec retryCandidate epsFactors = some (1 / 100) ∧
    quadSearch 100 [retryCandidate] = some (retryCandidate, 2 / 100) ∧
    ((1 : ℚ) / 100) ≠ 2 / 100 := by
  refine ⟨?_, ?_, ?_, by norm_num⟩
  · norm_num [retryCandidate]
  · norm_num [findEpsSpec, epsFactors, retryCandidate]
  · norm_num [quadSearch, sortCandidates, List.insertionSort, List.orderedInsert,
      searchGo, areaPercent, findEps, epsFactors, retryCandidate,
      decide_eq_true_eq]

/-- C3 (amended): the search processes candidates in area-descending order
(top 10), and a selected result (c, ε) satisfies: c passed the 15% area
filter, ε yields a 4-vertex simplification whose transform succeeds, every
EARLIER tolerance either does not yield 4 vertices or fails its transform,
every earlier candidate was skipped or exhausted, and the search terminates
immediately upon acceptance — candidates after the winner cannot change the
result. -/
theorem quadSearch_first_accepted (A : ℚ) (cs : List Candidate) :
    ((sortCandidates cs).take (min 10 cs.length)).Sorted
        (fun a b => b.area ≤ a.area) ∧
    ∀ c e, quadSearch A cs = some (c, e) →
      (c.approxLen (e * c.peri) = 4 ∧ c.warpOk (e * c.peri) = true) ∧
      ¬ areaPercent A c < 15 ∧
      (∃ eps₁ eps₂, epsFactors = eps₁ ++ e :: eps₂ ∧
        ∀ e' ∈ eps₁,
          ¬ (c.approxLen (e' * c.peri) = 4 ∧ c.warpOk (e' * c.peri) = true)) ∧
      ∃ l₁ l₂, (sortCandidates cs).take (min 10 cs.length) = l₁ ++ c :: l₂ ∧
        (∀ c' ∈ l₁, areaPercent A c' < 15 ∨ findEps c' epsFactors = none) ∧
        ∀ l₂', searchGo A (l₁ ++ c :: l₂') = some (c, e) := by
  constructor
  · haveI : IsTotal Candidate (fun a b => b.area ≤ a.area) :=
      ⟨fun a b => le_total _ _⟩
    haveI : IsTrans Candidate (fun a b => b.area ≤ a.area) :=
      ⟨fun a b c hab hbc => le_trans hbc hab⟩
    exact (List.sorted_insertionSort _ cs).sublist (List.take_sublist _ _)
  · intro c e h
    obtain ⟨h15, hf, l₁, l₂, heq, hrej⟩ := searchGo_some_split h
    obtain ⟨hacc, eps₁, eps₂, heps, hepsrej⟩ := findEps_some_split hf
    exact ⟨hacc, h15, ⟨eps₁, eps₂, heps, hepsrej⟩,
      l₁, l₂, heq, hrej, fun l₂' => searchGo_break h15 hf l₁ hrej l₂'⟩

/-- C3 witness: the characterization applied to the concrete one-candidate
search that accepts tolerance 0.02. -/
theorem quadSearch_first_accepted_witness :
    quadSearch 100 [retryCandidate] = some (retryCandidate, 2 / 100) ∧
    (retryCandidate.approxLen ((2 / 100) * retryCandidate.peri) = 4 ∧
      retryCandidate.warpOk ((2 / 100) * retryCandidate.peri) = true) ∧
    ¬ areaPercent 100 retryCandidate < 15 := by
  have heval : quadSearch 100 [retryCandidate]
      = some (retryCandidate, 2 / 100) := by
    norm_num [quadSearch, sortCandidates, List.insertionSort, List.orderedInsert,
      searchGo, areaPercent, findEps, epsFactors, retryCandidate,
      decide_eq_true_eq]
  have h := (quadSearch_first_accepted 100 [retryCandidate]).2
    retryCandidate (2 / 100) heval
  exact ⟨heval, h.1, h.2.1⟩

/-- A candidate occupying 100% of a 100-unit working-image area whose
simplification immediately yields a quadrilateral. -/
def wholeFrame : Candidate := ⟨100, 40, fun _ => 4, fun _ => true⟩

/-- C4 counterexample: a candidate occupying 100% of the working-image area is
NOT rejected before simplification: the part_000 loop checks only the 15%
lower bound (line 75) and has no upper bound, so the whole-frame candidate is
simplified and accepted at the first tolerance. -/
theorem quadSearch_accepts_whole_frame :
    areaPercent 100 wholeFrame = 100 ∧
    quadSearch 100 [wholeFrame] = some (wholeFrame, 1 / 100) := by
  constructor
  · norm_num [areaPercent, wholeFrame]
  · norm_num [quadSearch, sortCandidates, List.insertionSort, List.orderedInsert,
      searchGo, areaPercent, findEps, epsFactors, wholeFrame]

/-- C4 (amended): the acceptance band has ONLY a lower bound: any selected
candidate has area at least 15% of the working-image area, and conversely a
candidate at or above 15% — however large, including the whole frame —
proceeds to simplification and is accepted whenever its tolerance loop
succeeds; there is no upper-bound rejection. -/
theorem quadSearch_area_lower_bound_only (A : ℚ) :
    (∀ (cs : List Candidate) (c : Candidate) (e : ℚ),
      quadSearch A cs = some (c, e) → ¬ areaPercent A c < 15) ∧
    (∀ c : Candidate, ¬ areaPercent A c < 15 →
      ∀ e, findEps c epsFactors = some e → quadSearch A [c] = some (c, e)) := by
  constructor
  · intro cs c e h
    exact (searchGo_some_split h).1
  · intro c h15 e hf
    have hbreak : searchGo A ([] ++ c :: []) = some (c, e) :=
      searchGo_break h15 hf [] (by simp) []
    simpa [quadSearch, sortCandidates, List.insertionSort,
      List.orderedInsert] using hbreak

/-- C4 witness: the whole-frame candidate passes the (only) filter and is
accepted. -/
theorem quadSearch_area_lower_bound_only_witness :
    ¬ areaPercent 100 wholeFrame < 15 ∧
    quadSearch 100 [wholeFrame] = some (wholeFrame, 1 / 100) := by
  have h15 : ¬ areaPercent 100 wholeFrame < 15 := by
    norm_num [areaPercent, wholeFrame]
  exact ⟨h15, (quadSearch_area_lower_bound_only 100).2 wholeFrame h15 (1 / 100)
    (by norm_num [findEps, epsFactors, wholeFrame])⟩

/-- C2 witness: a concrete permuted pair of quads with pairwise-distinct
coordinate sums on which the amended invariance theorem applies. -/
theorem orderPoints_perm_invariant_witness :
    ([((0 : ℚ), (0 : ℚ)), (9, 1), (8, 6), (2, 13)].map sumKey).Nodup ∧
    orderPoints [((0 : ℚ), (0 : ℚ)), (9, 1), (8, 6), (2, 13)]
      = orderPoints [(9, 1), (0, 0), (8, 6), (2, 13)] :=
  ⟨by norm_num [sumKey],
    orderPoints_perm_invariant
      (List.Perm.swap (9, 1) (0, 0) [(8, 6), (2, 13)])
      (by norm_num [sumKey])⟩

end Scanner
